import Mathlib

/-!
# Verification of the content-moderation proxy service (`main.go`)

A shallow embedding of the Go service: a JSON value model, the Go
`encoding/json` decoding semantics for each struct in the program, and the
HTTP handlers (`handleAnalyze`, `analyzeMessage`, `corsMiddleware`,
`handleOllamaHealth`, `loadConfig`).  External effects — the `text/template`
renderer, the text-level JSON parser of `encoding/json`, the HTTP transport
to the inference backend, and the filesystem — are passed in as explicit
oracles, and each handler returns the list of backend requests it issued so
that call/no-call properties are provable.
-/

set_option maxRecDepth 4000

/-- A JSON value.  Numbers carry an `Int` representative; no claim in this
development depends on numeric values, only on the kind of a value. -/
inductive Json where
  | null : Json
  | bool : Bool → Json
  | num : Int → Json
  | str : String → Json
  | arr : List Json → Json
  | obj : List (String × Json) → Json
deriving Repr

/-- ASCII lower-casing of one character (the struct tags of this program
are all ASCII, so Go's simple Unicode folding restricts to this). -/
def asciiLowerChar (c : Char) : Char :=
  if 65 ≤ c.toNat ∧ c.toNat ≤ 90 then Char.ofNat (c.toNat + 32) else c

/-- Case folding of two strings, as `strings.EqualFold` on ASCII. -/
def eqFold (s t : String) : Bool :=
  s.data.map asciiLowerChar == t.data.map asciiLowerChar

/-- Go `encoding/json` matches an incoming object key to a struct field's
tag exactly or case-insensitively (`strings.EqualFold`). -/
def keyMatches (k tag : String) : Bool :=
  k == tag || eqFold k tag

/-- `true` on values Go can decode into a `string` slot inside a slice:
a JSON string, or `null` (which leaves the zero value `""`). -/
def stringOrNull : Json → Bool
  | .str _ => true
  | .null => true
  | _ => false

/-- Boolean success test for an `Except` value. -/
def isOkB {ε α : Type} : Except ε α → Bool
  | .ok _ => true
  | .error _ => false

/-- Go decoding of a JSON array into `[]string`: each element must be a
string (or `null`, giving `""`); anything else is an unmarshal type error. -/
def decodeStringArray : List Json → Except String (List String)
  | [] => .ok []
  | .str s :: rest => (decodeStringArray rest).map (fun l => s :: l)
  | .null :: rest => (decodeStringArray rest).map (fun l => "" :: l)
  | _ :: _ => .error "cannot unmarshal element into string"

/-- Fold Go's sequential object decoding over the fields of a JSON object:
each key/value pair updates the struct being built, the first type error
aborts (Go reports an error whenever any field fails to decode). -/
def foldFields {σ : Type} (set : σ → String → Json → Except String σ) :
    σ → List (String × Json) → Except String σ
  | s, [] => .ok s
  | s, (k, v) :: rest =>
    match set s k v with
    | .ok s2 => foldFields set s2 rest
    | .error e => .error e

/-- Go struct `moderationResult { Safe bool; ViolatedPolicies []string }`
(tags `safe`, `violated_policies`).  `violated_policies` is an
`Option (List String)` because Go distinguishes the nil slice (absent or
`null` field; marshals back as `null`) from an empty slice. -/
structure moderationResult where
  safe : Bool
  violated_policies : Option (List String)
deriving Repr

/-- Decoding one object field into `moderationResult`: `null` leaves the
current value (Go's no-op rule), a matching key needs the right type,
unknown keys are ignored. -/
def setModField (m : moderationResult) (k : String) (v : Json) :
    Except String moderationResult :=
  if keyMatches k "safe" then
    match v with
    | .null => .ok m
    | .bool b => .ok { m with safe := b }
    | _ => .error "cannot unmarshal into bool"
  else if keyMatches k "violated_policies" then
    match v with
    | .null => .ok m
    | .arr xs => (decodeStringArray xs).map
        (fun l => { m with violated_policies := some l })
    | _ => .error "cannot unmarshal into string slice"
  else .ok m

/-- `json.Unmarshal` of a JSON value into `moderationResult`: JSON `null`
is a no-op leaving the zero struct, an object decodes field by field, any
other kind is a type error.  Missing fields keep their zero values. -/
def decodeModerationResult (j : Json) : Except String moderationResult :=
  match j with
  | .null => .ok ⟨false, none⟩
  | .obj fields => foldFields setModField ⟨false, none⟩ fields
  | _ => .error "cannot unmarshal into moderationResult"

/-- Declarative schema-conformance test for one `moderationResult` object
field, written independently of the decoder: a `safe`-matching key must be
boolean or null, a `violated_policies`-matching key null or an array of
strings/nulls, other keys are unconstrained. -/
def modFieldOk (k : String) (v : Json) : Bool :=
  if keyMatches k "safe" then
    match v with
    | .null => true
    | .bool _ => true
    | _ => false
  else if keyMatches k "violated_policies" then
    match v with
    | .null => true
    | .arr xs => xs.all stringOrNull
    | _ => false
  else true

/-- Declarative characterisation of the JSON values `decodeModerationResult`
accepts: `null`, or an object each of whose fields is type-compatible. -/
def conformsModerationSchema : Json → Bool
  | .null => true
  | .obj fields => fields.all (fun kv => modFieldOk kv.1 kv.2)
  | _ => false

/-- `true` iff the JSON value is an object having a key matching `tag`. -/
def hasKeyCI (tag : String) : Json → Bool
  | .obj fields => fields.any (fun kv => keyMatches kv.1 tag)
  | _ => false

/-- Go struct `analyzeRequest { Messages []string }` (tag `messages`),
decoded field by field; absent or `null` `messages` leaves the zero (nil)
slice, indistinguishable here from the empty list. -/
def setAnalyzeReqField (m : List String) (k : String) (v : Json) :
    Except String (List String) :=
  if keyMatches k "messages" then
    match v with
    | .null => .ok m
    | .arr xs => decodeStringArray xs
    | _ => .error "cannot unmarshal into string slice"
  else .ok m

/-- `json.Unmarshal` of a JSON value into `analyzeRequest`. -/
def decodeAnalyzeRequest (j : Json) : Except String (List String) :=
  match j with
  | .null => .ok []
  | .obj fields => foldFields setAnalyzeReqField [] fields
  | _ => .error "cannot unmarshal into analyzeRequest"

/-- The request body as `handleAnalyze` sees it: `none` models a body that
is not valid JSON at all (including an empty body); `some j` a body whose
text parses to the value `j`.  Both a parse failure and a type error in
`decodeAnalyzeRequest` surface as the same decoder error in Go. -/
def decodeAnalyzeBody (body : Option Json) : Except String (List String) :=
  match body with
  | none => .error "invalid JSON body"
  | some j => decodeAnalyzeRequest j

/-- Go struct `analysisResult { Content string; IsSafe bool;
ViolatedPolicies []string }` — the per-message element of the response
array.  `violated_policies` is `none` for Go's nil slice. -/
structure analysisResult where
  content : String
  is_safe : Bool
  violated_policies : Option (List String)
deriving Repr

/-- `json.Marshal` of an `analysisResult`: fields in struct order; a nil
`ViolatedPolicies` slice marshals as JSON `null`, a non-nil one as an
array. -/
def encodeAnalysisResult (r : analysisResult) : Json :=
  .obj [("content", .str r.content),
        ("is_safe", .bool r.is_safe),
        ("violated_policies",
          match r.violated_policies with
          | none => .null
          | some l => .arr (l.map .str))]

/-- Go struct `Config` from `loadConfig` (tags `ollama_url`, `model`,
`prompt_template`, `policies`, `response_format`).  `ResponseFormat` is an
untyped `interface{}`, so it holds an arbitrary JSON value (`null` for the
zero/absent case). -/
structure Config where
  OllamaURL : String
  Model : String
  PromptTemplate : String
  Policies : List String
  ResponseFormat : Json
deriving Repr

/-- Decoding one object field into `Config`. -/
def setConfigField (c : Config) (k : String) (v : Json) :
    Except String Config :=
  if keyMatches k "ollama_url" then
    match v with
    | .null => .ok c
    | .str s => .ok { c with OllamaURL := s }
    | _ => .error "cannot unmarshal into string"
  else if keyMatches k "model" then
    match v with
    | .null => .ok c
    | .str s => .ok { c with Model := s }
    | _ => .error "cannot unmarshal into string"
  else if keyMatches k "prompt_template" then
    match v with
    | .null => .ok c
    | .str s => .ok { c with PromptTemplate := s }
    | _ => .error "cannot unmarshal into string"
  else if keyMatches k "policies" then
    match v with
    | .null => .ok c
    | .arr xs => (decodeStringArray xs).map (fun l => { c with Policies := l })
    | _ => .error "cannot unmarshal into string slice"
  else if keyMatches k "response_format" then
    .ok { c with ResponseFormat := v }
  else .ok c

/-- `json.Unmarshal` of a JSON value into `Config`. -/
def decodeConfig (j : Json) : Except String Config :=
  match j with
  | .null => .ok ⟨"", "", "", [], .null⟩
  | .obj fields => foldFields setConfigField ⟨"", "", "", [], .null⟩ fields
  | _ => .error "cannot unmarshal into Config"

/-- What `os.ReadFile` + text-level JSON parsing yield for the config file:
the read fails, or the file's text is not valid JSON, or it parses to a
JSON value. -/
inductive FileRead where
  | readError : FileRead
  | contents : Option Json → FileRead

/-- `loadConfig`: read the file, unmarshal it into `Config`, then reject a
config whose `ollama_url`, `model` or `prompt_template` is empty. -/
def loadConfig (f : FileRead) : Except String Config :=
  match f with
  | .readError => .error "error reading config file"
  | .contents none => .error "error parsing config file"
  | .contents (some j) =>
    match decodeConfig j with
    | .error e => .error ("error parsing config file: " ++ e)
    | .ok cfg =>
      if cfg.OllamaURL = "" ∨ cfg.Model = "" ∨ cfg.PromptTemplate = "" then
        .error "missing required fields in config"
      else .ok cfg

/-- The behaviour of Go's `text/template` `Parse`+`Execute` (with the `inc`
helper) on a template, the message and the policy list — an external
library, passed in as an oracle: `Renderer template message policies` is
the rendered prompt or a template error. -/
def Renderer : Type := String → String → List String → Except String String

/-- `generatePrompt`: render the prompt template with the message text and
the policy list. -/
def generatePrompt (render : Renderer) (message : String)
    (policies : List String) (promptTemplate : String) :
    Except String String :=
  render promptTemplate message policies

/-- Go struct `ollamaGenerateRequest { Model, Prompt string; Stream bool;
Format interface{} }` — the JSON body POSTed to the backend. -/
structure ollamaGenerateRequest where
  Model : String
  Prompt : String
  Stream : Bool
  Format : Json
deriving Repr

/-- One POST issued to the inference backend: target URL plus body. -/
structure GenRequest where
  url : String
  body : ollamaGenerateRequest
deriving Repr

/-- The single generate request `analyzeMessage` builds for a prompt. -/
def genRequestFor (cfg : Config) (prompt : String) : GenRequest :=
  ⟨cfg.OllamaURL ++ "/api/generate", ⟨cfg.Model, prompt, false, cfg.ResponseFormat⟩⟩

/-- The transport's answer to a generate request: a connection/transport
error, or an HTTP status with a response body (`none` when the body is not
valid JSON for the `{response: string}` wrapper decode). -/
inductive BackendReply where
  | transportError : BackendReply
  | reply : Nat → Option Json → BackendReply

/-- Decoding the backend's body into Go's anonymous
`struct { Response string }` (tag `response`). -/
def setOllamaRespField (s : String) (k : String) (v : Json) :
    Except String String :=
  if keyMatches k "response" then
    match v with
    | .null => .ok s
    | .str t => .ok t
    | _ => .error "cannot unmarshal into string"
  else .ok s

/-- `json.Decode` of the backend body into `struct { Response string }`. -/
def decodeOllamaResponse (j : Json) : Except String String :=
  match j with
  | .null => .ok ""
  | .obj fields => foldFields setOllamaRespField "" fields
  | _ => .error "cannot unmarshal into response wrapper"

/-- The text-level JSON parser of `encoding/json`, as an oracle: `none`
when the text is not valid JSON, `some j` when it parses to `j`. -/
def JsonParser : Type := String → Option Json

/-- `analyzeMessage`: build the prompt, issue exactly one POST to
`<ollama_url>/api/generate` with body `{model, prompt, stream: false,
format}`, treat a transport error or non-200 status as failure, decode the
`{response}` wrapper, parse the inner text as a `moderationResult`, and
wrap a success as an `analysisResult` carrying the original message.  The
first component is the list of generate requests issued. -/
def analyzeMessage (render : Renderer) (jparse : JsonParser) (cfg : Config)
    (backend : GenRequest → BackendReply) (message : String) :
    List GenRequest × Except String analysisResult :=
  match generatePrompt render message cfg.Policies cfg.PromptTemplate with
  | .error e => ([], .error ("error generating prompt: " ++ e))
  | .ok prompt =>
    let req := genRequestFor cfg prompt
    ([req],
      match backend req with
      | .transportError => .error "API request failed"
      | .reply status body =>
        if status ≠ 200 then .error "API request failed"
        else
          match body with
          | none => .error "error decoding response"
          | some bj =>
            match decodeOllamaResponse bj with
            | .error _ => .error "error decoding response"
            | .ok respText =>
              match jparse respText with
              | none => .error "error parsing moderation result"
              | some mj =>
                match decodeModerationResult mj with
                | .error _ => .error "error parsing moderation result"
                | .ok mr => .ok ⟨message, mr.safe, mr.violated_policies⟩)

/-- The sequential per-message loop of `handleAnalyze`: failed messages are
skipped (logged only), successes are appended in input order. -/
def analyzeBatch (render : Renderer) (jparse : JsonParser) (cfg : Config)
    (backend : GenRequest → BackendReply) (msgs : List String) :
    List analysisResult :=
  msgs.filterMap (fun m => (analyzeMessage render jparse cfg backend m).2.toOption)

/-- All generate requests the loop issues, in order. -/
def analyzeBatchCalls (render : Renderer) (jparse : JsonParser) (cfg : Config)
    (backend : GenRequest → BackendReply) (msgs : List String) :
    List GenRequest :=
  (msgs.map (fun m => (analyzeMessage render jparse cfg backend m).1)).flatten

/-- An incoming HTTP request: its method and its body text's parse result
(`none` = body absent or not valid JSON). -/
structure HttpRequest where
  method : String
  body : Option Json

/-- A response body: plain text (as written by `http.Error` / `Write`) or
a JSON document (as written by `json.Encoder.Encode`). -/
inductive RespBody where
  | text : String → RespBody
  | json : Json → RespBody

/-- What a handler produced: status, response headers in the order they
were set, body, and the generate requests issued to the backend. -/
structure HandlerResult where
  status : Nat
  headers : List (String × String)
  body : RespBody
  genCalls : List GenRequest

/-- `handleAnalyze`: 405 for non-POST, 400 for an undecodable body, 400 for
an empty message list, otherwise run the batch and encode the (possibly
shorter) result array as JSON with status 200. -/
def handleAnalyze (render : Renderer) (jparse : JsonParser) (cfg : Config)
    (backend : GenRequest → BackendReply) (r : HttpRequest) : HandlerResult :=
  if r.method ≠ "POST" then
    ⟨405, [], .text "Method not allowed", []⟩
  else
    match decodeAnalyzeBody r.body with
    | .error _ => ⟨400, [], .text "Invalid request body", []⟩
    | .ok messages =>
      if messages.length = 0 then
        ⟨400, [], .text "Messages array cannot be empty", []⟩
      else
        ⟨200, [("Content-Type", "application/json")],
          .json (.arr ((analyzeBatch render jparse cfg backend messages).map
            encodeAnalysisResult)),
          analyzeBatchCalls render jparse cfg backend messages⟩

/-- The three CORS headers `corsMiddleware` sets on every response. -/
def corsHeaders : List (String × String) :=
  [("Access-Control-Allow-Origin", "*"),
   ("Access-Control-Allow-Methods", "POST, OPTIONS"),
   ("Access-Control-Allow-Headers", "Content-Type")]

/-- `corsMiddleware`: set the CORS headers, answer `OPTIONS` directly with
200 and an empty body, and delegate everything else to the wrapped
handler. -/
def corsMiddleware (next : HttpRequest → HandlerResult) (r : HttpRequest) :
    HandlerResult :=
  if r.method = "OPTIONS" then
    ⟨200, corsHeaders, .text "", []⟩
  else
    let res := next r
    { res with headers := corsHeaders ++ res.headers }

/-- The outcome of the health probe to `<ollama_url>/api/version`:
request-construction failure, connection failure, or a status plus raw
body text. -/
inductive HealthOutcome where
  | createError : String → HealthOutcome
  | connectError : String → HealthOutcome
  | reply : Nat → String → HealthOutcome

/-- `handleOllamaHealth`: GET `<ollama_url>/api/version`; 503 when the
request cannot be built or the connection fails, 502 embedding the
backend's status code and body when the status is not 200, otherwise 200
with the backend body prefixed by `"ollama: "`. -/
def handleOllamaHealth (ollamaURL : String)
    (backend : String → HealthOutcome) (_r : HttpRequest) : HandlerResult :=
  match backend (ollamaURL ++ "/api/version") with
  | .createError e => ⟨503, [], .text ("creating version request: " ++ e), []⟩
  | .connectError e => ⟨503, [], .text ("connecting to Ollama: " ++ e), []⟩
  | .reply status body =>
    if status ≠ 200 then
      ⟨502, [],
        .text ("unexpected version status code " ++ toString status ++ ": " ++ body),
        []⟩
    else ⟨200, [], .text ("ollama: " ++ body), []⟩

/-! ## Basic lemmas about the decoders -/

@[simp] theorem isOkB_ok {ε α : Type} (a : α) :
    isOkB (Except.ok a : Except ε α) = true := rfl

@[simp] theorem isOkB_error {ε α : Type} (e : ε) :
    isOkB (Except.error e : Except ε α) = false := rfl

@[simp] theorem isOkB_map {ε α β : Type} (f : α → β) (e : Except ε α) :
    isOkB (e.map f) = isOkB e := by
  cases e <;> rfl

theorem decodeStringArray_isOk (xs : List Json) :
    isOkB (decodeStringArray xs) = xs.all stringOrNull := by
  induction xs with
  | nil => rfl
  | cons x rest ih =>
    cases x <;>
      simp [decodeStringArray, stringOrNull, List.all_cons, ih]

theorem setModField_isOk (m : moderationResult) (k : String) (v : Json) :
    isOkB (setModField m k v) = modFieldOk k v := by
  unfold setModField modFieldOk
  by_cases h1 : keyMatches k "safe" = true
  · simp only [h1, if_true]
    cases v <;> rfl
  · simp only [h1, Bool.false_eq_true, if_false]
    by_cases h2 : keyMatches k "violated_policies" = true
    · simp only [h2, if_true]
      cases v <;> simp [decodeStringArray_isOk]
    · simp only [h2, Bool.false_eq_true, if_false]
      rfl

theorem foldFields_mod_isOk (fields : List (String × Json)) (m : moderationResult) :
    isOkB (foldFields setModField m fields) =
      fields.all (fun kv => modFieldOk kv.1 kv.2) := by
  induction fields generalizing m with
  | nil => rfl
  | cons kv rest ih =>
    obtain ⟨k, v⟩ := kv
    cases h : setModField m k v with
    | ok m2 =>
      have hok : modFieldOk k v = true := by
        rw [← setModField_isOk m k v, h]; rfl
      simp [foldFields, h, List.all_cons, hok, ih]
    | error e =>
      have hbad : modFieldOk k v = false := by
        rw [← setModField_isOk m k v, h]; rfl
      simp [foldFields, h, List.all_cons, hbad, isOkB]

theorem decodeModerationResult_isOk (j : Json) :
    isOkB (decodeModerationResult j) = conformsModerationSchema j := by
  cases j <;>
    simp [decodeModerationResult, conformsModerationSchema, foldFields_mod_isOk]

/-! ## Shape of `analyzeMessage` -/

theorem analyzeMessage_ok_content (render : Renderer) (jparse : JsonParser)
    (cfg : Config) (backend : GenRequest → BackendReply) (m : String)
    (res : analysisResult)
    (h : (analyzeMessage render jparse cfg backend m).2 = .ok res) :
    res.content = m := by
  unfold analyzeMessage at h
  split at h
  · simp at h
  · simp only at h
    split at h
    · simp at h
    · split at h
      · simp at h
      · split at h
        · simp at h
        · split at h
          · simp at h
          · split at h
            · simp at h
            · split at h
              · simp at h
              · rw [Except.ok.injEq] at h
                subst h
                rfl

@[simp] theorem toOption_ok {ε α : Type} (a : α) :
    (Except.ok a : Except ε α).toOption = some a := rfl

@[simp] theorem toOption_error {ε α : Type} (e : ε) :
    (Except.error e : Except ε α).toOption = none := rfl

theorem analyzeBatch_contents (render : Renderer) (jparse : JsonParser)
    (cfg : Config) (backend : GenRequest → BackendReply) (msgs : List String) :
    (analyzeBatch render jparse cfg backend msgs).map analysisResult.content =
      msgs.filter
        (fun m => ((analyzeMessage render jparse cfg backend m).2).toOption.isSome) := by
  induction msgs with
  | nil => rfl
  | cons m rest ih =>
    unfold analyzeBatch at ih ⊢
    cases h : (analyzeMessage render jparse cfg backend m).2 with
    | error e =>
      simp only [List.filterMap_cons, List.filter_cons, h, toOption_error,
        Option.isSome_none, Bool.false_eq_true, if_false, ih]
    | ok res =>
      have hc := analyzeMessage_ok_content render jparse cfg backend m res h
      simp only [List.filterMap_cons, List.filter_cons, h, toOption_ok,
        Option.isSome_some, if_true, List.map_cons, ih, hc]

theorem handleAnalyze_post_ok (render : Renderer) (jparse : JsonParser)
    (cfg : Config) (backend : GenRequest → BackendReply) (j : Json)
    (msgs : List String)
    (hdec : decodeAnalyzeRequest j = .ok msgs) (hne : msgs ≠ []) :
    handleAnalyze render jparse cfg backend ⟨"POST", some j⟩ =
      ⟨200, [("Content-Type", "application/json")],
        .json (.arr ((analyzeBatch render jparse cfg backend msgs).map
          encodeAnalysisResult)),
        analyzeBatchCalls render jparse cfg backend msgs⟩ := by
  unfold handleAnalyze
  rw [if_neg (by simp)]
  simp only [decodeAnalyzeBody, hdec]
  rw [if_neg (by simpa using hne)]

/-! ## Claims about `handleAnalyze` output shape -/

/-- C1: for a POST whose body decodes to a non-empty message list, if every
per-message analysis succeeds then the response is a 200 JSON array of the
same length as the input, in input order, whose i-th element's `content`
equals the i-th input message. -/
theorem C1_analyze_success_shape (render : Renderer) (jparse : JsonParser)
    (cfg : Config) (backend : GenRequest → BackendReply) (j : Json)
    (msgs : List String)
    (hdec : decodeAnalyzeRequest j = .ok msgs) (hne : msgs ≠ [])
    (hok : ∀ m ∈ msgs,
      ∃ res, (analyzeMessage render jparse cfg backend m).2 = .ok res) :
    (handleAnalyze render jparse cfg backend ⟨"POST", some j⟩).status = 200 ∧
    (handleAnalyze render jparse cfg backend ⟨"POST", some j⟩).body =
      .json (.arr ((analyzeBatch render jparse cfg backend msgs).map
        encodeAnalysisResult)) ∧
    (analyzeBatch render jparse cfg backend msgs).length = msgs.length ∧
    ∀ (i : Nat) (h1 : i < (analyzeBatch render jparse cfg backend msgs).length)
      (h2 : i < msgs.length),
      ((analyzeBatch render jparse cfg backend msgs).get ⟨i, h1⟩).content =
        msgs.get ⟨i, h2⟩ := by
  have hall : ∀ m ∈ msgs,
      ((analyzeMessage render jparse cfg backend m).2).toOption.isSome = true := by
    intro m hm
    obtain ⟨res, hres⟩ := hok m hm
    rw [hres]; rfl
  have hmap : (analyzeBatch render jparse cfg backend msgs).map
      analysisResult.content = msgs := by
    rw [analyzeBatch_contents]
    exact List.filter_eq_self.mpr hall
  have hred := handleAnalyze_post_ok render jparse cfg backend j msgs hdec hne
  refine ⟨by rw [hred], by rw [hred], ?_, ?_⟩
  · have hlen := congrArg List.length hmap
    simpa using hlen
  · intro i h1 h2
    have h1m : i < ((analyzeBatch render jparse cfg backend msgs).map
        analysisResult.content).length := by simpa using h1
    have e1 := List.getElem_of_eq hmap h1m
    rw [List.getElem_map] at e1
    simpa [List.get_eq_getElem] using e1

/-- C2: for a POST whose body decodes to a non-empty message list, the 200
response body is exactly the array of per-message successes in input order
(failed messages are omitted, with no per-item error marker), and the
output elements' `content` fields are exactly the succeeding input
messages in input order. -/
theorem C2_failed_messages_omitted (render : Renderer) (jparse : JsonParser)
    (cfg : Config) (backend : GenRequest → BackendReply) (j : Json)
    (msgs : List String)
    (hdec : decodeAnalyzeRequest j = .ok msgs) (hne : msgs ≠ []) :
    (handleAnalyze render jparse cfg backend ⟨"POST", some j⟩).status = 200 ∧
    (handleAnalyze render jparse cfg backend ⟨"POST", some j⟩).body =
      .json (.arr ((msgs.filterMap
        (fun m => ((analyzeMessage render jparse cfg backend m).2).toOption)).map
          encodeAnalysisResult)) ∧
    (analyzeBatch render jparse cfg backend msgs).map analysisResult.content =
      msgs.filter
        (fun m => ((analyzeMessage render jparse cfg backend m).2).toOption.isSome) := by
  have hred := handleAnalyze_post_ok render jparse cfg backend j msgs hdec hne
  exact ⟨by rw [hred], by rw [hred]; rfl,
    analyzeBatch_contents render jparse cfg backend msgs⟩

/-! ## Routing, CORS and health claims -/

/-- C4: on the CORS-wrapped `/api/analyze` route, a non-POST non-OPTIONS
request gets 405, a POST with an undecodable body gets 400 "Invalid
request body", a POST decoding to an empty message list gets 400
"Messages array cannot be empty", and in each case no generate request is
issued to the backend. -/
theorem C4_analyze_route_errors (render : Renderer) (jparse : JsonParser)
    (cfg : Config) (backend : GenRequest → BackendReply) (r : HttpRequest) :
    (r.method ≠ "POST" → r.method ≠ "OPTIONS" →
      (corsMiddleware (handleAnalyze render jparse cfg backend) r).status = 405 ∧
      (corsMiddleware (handleAnalyze render jparse cfg backend) r).genCalls = []) ∧
    (r.method = "POST" → isOkB (decodeAnalyzeBody r.body) = false →
      (corsMiddleware (handleAnalyze render jparse cfg backend) r).status = 400 ∧
      (corsMiddleware (handleAnalyze render jparse cfg backend) r).body =
        .text "Invalid request body" ∧
      (corsMiddleware (handleAnalyze render jparse cfg backend) r).genCalls = []) ∧
    (r.method = "POST" → decodeAnalyzeBody r.body = .ok [] →
      (corsMiddleware (handleAnalyze render jparse cfg backend) r).status = 400 ∧
      (corsMiddleware (handleAnalyze render jparse cfg backend) r).body =
        .text "Messages array cannot be empty" ∧
      (corsMiddleware (handleAnalyze render jparse cfg backend) r).genCalls = []) := by
  refine ⟨?_, ?_, ?_⟩
  · intro h1 h2
    simp [corsMiddleware, handleAnalyze, h1, h2]
  · intro h1 h2
    have h2' : ∃ e, decodeAnalyzeBody r.body = .error e := by
      cases hb : decodeAnalyzeBody r.body with
      | ok v => rw [hb] at h2; simp at h2
      | error e => exact ⟨e, rfl⟩
    obtain ⟨e, hb⟩ := h2'
    have hno : r.method ≠ "OPTIONS" := by rw [h1]; decide
    simp [corsMiddleware, handleAnalyze, h1, hno, hb]
  · intro h1 h2
    have hno : r.method ≠ "OPTIONS" := by rw [h1]; decide
    simp [corsMiddleware, handleAnalyze, h1, hno, h2]

/-- C5: the health handler answers 503 when the request to
`<ollama_url>/api/version` cannot be created or the connection fails, 502
with the backend's status code and body embedded in the text when the
backend answers a non-200 status, and otherwise 200 with the backend body
prefixed by "ollama: ". -/
theorem C5_health_statuses (ollamaURL : String)
    (backend : String → HealthOutcome) (r : HttpRequest) :
    (∀ e, backend (ollamaURL ++ "/api/version") = .createError e →
      (handleOllamaHealth ollamaURL backend r).status = 503) ∧
    (∀ e, backend (ollamaURL ++ "/api/version") = .connectError e →
      (handleOllamaHealth ollamaURL backend r).status = 503) ∧
    (∀ status body, backend (ollamaURL ++ "/api/version") = .reply status body →
      status ≠ 200 →
      (handleOllamaHealth ollamaURL backend r).status = 502 ∧
      (handleOllamaHealth ollamaURL backend r).body =
        .text ("unexpected version status code " ++ toString status ++ ": " ++ body)) ∧
    (∀ body, backend (ollamaURL ++ "/api/version") = .reply 200 body →
      (handleOllamaHealth ollamaURL backend r).status = 200 ∧
      (handleOllamaHealth ollamaURL backend r).body =
        .text ("ollama: " ++ body)) := by
  refine ⟨?_, ?_, ?_, ?_⟩
  · intro e hb
    simp [handleOllamaHealth, hb]
  · intro e hb
    simp [handleOllamaHealth, hb]
  · intro status body hb hs
    simp [handleOllamaHealth, hb, hs]
  · intro body hb
    simp [handleOllamaHealth, hb]

/-- C6: `corsMiddleware` answers any OPTIONS request itself with 200, the
CORS headers, an empty body and no backend calls — independently of the
wrapped handler — and on any other method it runs the wrapped handler
unchanged, only prepending the CORS headers; the permissive origin header
is present on every response. -/
theorem C6_cors_options (next : HttpRequest → HandlerResult) (r : HttpRequest) :
    (r.method = "OPTIONS" →
      corsMiddleware next r = ⟨200, corsHeaders, .text "", []⟩ ∧
      ∀ next2 : HttpRequest → HandlerResult,
        corsMiddleware next2 r = corsMiddleware next r) ∧
    (r.method ≠ "OPTIONS" →
      corsMiddleware next r =
        { next r with headers := corsHeaders ++ (next r).headers }) ∧
    ("Access-Control-Allow-Origin", "*") ∈ (corsMiddleware next r).headers := by
  refine ⟨?_, ?_, ?_⟩
  · intro h
    constructor
    · simp [corsMiddleware, h]
    · intro next2
      simp [corsMiddleware, h]
  · intro h
    simp [corsMiddleware, h]
  · by_cases h : r.method = "OPTIONS"
    · simp [corsMiddleware, h, corsHeaders]
    · simp [corsMiddleware, h, corsHeaders]

/-! ## Configuration loading -/

/-- C7: `loadConfig` fails exactly when the file cannot be read, its text
is not valid JSON for the `Config` schema (parse or type error), or a
required field (`ollama_url`, `model`, `prompt_template`) is empty; on
success it returns exactly the decoded configuration, and a config with no
`policies` and no `response_format` entry is accepted. -/
theorem C7_loadConfig_conditions (f : FileRead) :
    (isOkB (loadConfig f) = false ↔
      f = .readError ∨ f = .contents none ∨
      (∃ j, f = .contents (some j) ∧ isOkB (decodeConfig j) = false) ∨
      (∃ j cfg, f = .contents (some j) ∧ decodeConfig j = .ok cfg ∧
        (cfg.OllamaURL = "" ∨ cfg.Model = "" ∨ cfg.PromptTemplate = ""))) ∧
    (∀ j cfg, f = .contents (some j) → decodeConfig j = .ok cfg →
      cfg.OllamaURL ≠ "" → cfg.Model ≠ "" → cfg.PromptTemplate ≠ "" →
      loadConfig f = .ok cfg) ∧
    loadConfig (.contents (some (.obj [("ollama_url", .str "http://u"),
        ("model", .str "m"), ("prompt_template", .str "t")]))) =
      .ok ⟨"http://u", "m", "t", [], .null⟩ := by
  refine ⟨⟨?_, ?_⟩, ?_, ?_⟩
  · intro hfail
    cases f with
    | readError => exact Or.inl rfl
    | contents o =>
      cases o with
      | none => exact Or.inr (Or.inl rfl)
      | some j =>
        cases hd : decodeConfig j with
        | error e =>
          exact Or.inr (Or.inr (Or.inl ⟨j, rfl, by rw [hd]; rfl⟩))
        | ok cfg =>
          by_cases hempty :
              cfg.OllamaURL = "" ∨ cfg.Model = "" ∨ cfg.PromptTemplate = ""
          · exact Or.inr (Or.inr (Or.inr ⟨j, cfg, rfl, hd, hempty⟩))
          · exfalso
            have hok : loadConfig (.contents (some j)) = .ok cfg := by
              simp [loadConfig, hd, hempty]
            rw [hok] at hfail
            simp at hfail
  · intro h
    rcases h with rfl | rfl | ⟨j, rfl, hj⟩ | ⟨j, cfg, rfl, hd, hempty⟩
    · rfl
    · rfl
    · cases hd : decodeConfig j with
      | error e => simp [loadConfig, hd]
      | ok cfg => rw [hd] at hj; simp at hj
    · simp [loadConfig, hd, hempty]
  · intro j cfg hf hd h1 h2 h3
    subst hf
    simp [loadConfig, hd, h1, h2, h3]
  · rfl

/-! ## The backend call of `analyzeMessage` -/

/-- C8: once the prompt renders, `analyzeMessage` issues exactly one POST,
to `<ollama_url>/api/generate`, whose body carries the configured model,
the rendered prompt, `stream = false` and the configured response format;
a transport error or a non-200 backend status fails that message with no
further request (no retry). -/
theorem C8_single_generate_call (render : Renderer) (jparse : JsonParser)
    (cfg : Config) (backend : GenRequest → BackendReply)
    (message prompt : String)
    (hp : generatePrompt render message cfg.Policies cfg.PromptTemplate = .ok prompt) :
    (analyzeMessage render jparse cfg backend message).1 =
      [⟨cfg.OllamaURL ++ "/api/generate",
        ⟨cfg.Model, prompt, false, cfg.ResponseFormat⟩⟩] ∧
    (backend (genRequestFor cfg prompt) = .transportError →
      (analyzeMessage render jparse cfg backend message).2 =
        .error "API request failed") ∧
    (∀ status body, backend (genRequestFor cfg prompt) = .reply status body →
      status ≠ 200 →
      (analyzeMessage render jparse cfg backend message).2 =
        .error "API request failed") := by
  refine ⟨?_, ?_, ?_⟩
  · unfold analyzeMessage
    rw [hp]
    rfl
  · intro hb
    unfold analyzeMessage
    rw [hp]
    simp [hb]
  · intro status body hb hs
    unfold analyzeMessage
    rw [hp]
    simp [hb, hs]

/-! ## Absent or null `messages` -/

theorem foldFields_analyzeReq_null (fields : List (String × Json))
    (h : ∀ kv ∈ fields, keyMatches kv.1 "messages" = true → kv.2 = .null) :
    foldFields setAnalyzeReqField [] fields = .ok [] := by
  induction fields with
  | nil => rfl
  | cons kv rest ih =>
    obtain ⟨k, v⟩ := kv
    have hrest : ∀ kv ∈ rest, keyMatches kv.1 "messages" = true → kv.2 = .null :=
      fun kv hm => h kv (List.mem_cons_of_mem _ hm)
    by_cases hk : keyMatches k "messages" = true
    · have hv : v = .null := h (k, v) (List.mem_cons_self _ _) hk
      subst hv
      simp [foldFields, setAnalyzeReqField, hk, ih hrest]
    · simp [foldFields, setAnalyzeReqField, hk, ih hrest]

theorem handleAnalyze_empty_list (render : Renderer) (jparse : JsonParser)
    (cfg : Config) (backend : GenRequest → BackendReply) (b : Option Json)
    (hb : decodeAnalyzeBody b = .ok []) :
    handleAnalyze render jparse cfg backend ⟨"POST", b⟩ =
      ⟨400, [], .text "Messages array cannot be empty", []⟩ := by
  unfold handleAnalyze
  rw [if_neg (by simp)]
  simp [hb]

/-- C9: a POST whose body is valid JSON in which the `messages` field is
absent or null gets exactly the same response as the explicit empty-list
body: 400 with the empty-batch error text. -/
theorem C9_absent_or_null_messages (render : Renderer) (jparse : JsonParser)
    (cfg : Config) (backend : GenRequest → BackendReply) (j : Json)
    (h : j = .null ∨ ∃ fields, j = .obj fields ∧
      ∀ kv ∈ fields, keyMatches kv.1 "messages" = true → kv.2 = .null) :
    handleAnalyze render jparse cfg backend ⟨"POST", some j⟩ =
      handleAnalyze render jparse cfg backend
        ⟨"POST", some (.obj [("messages", .arr [])])⟩ ∧
    (handleAnalyze render jparse cfg backend ⟨"POST", some j⟩).status = 400 ∧
    (handleAnalyze render jparse cfg backend ⟨"POST", some j⟩).body =
      .text "Messages array cannot be empty" := by
  have hdec : decodeAnalyzeRequest j = .ok [] := by
    rcases h with rfl | ⟨fields, rfl, hf⟩
    · rfl
    · exact foldFields_analyzeReq_null fields hf
  have h1 := handleAnalyze_empty_list render jparse cfg backend (some j)
    (by simp [decodeAnalyzeBody, hdec])
  have h2 := handleAnalyze_empty_list render jparse cfg backend
    (some (.obj [("messages", .arr [])])) (by rfl)
  refine ⟨?_, ?_, ?_⟩
  · rw [h1, h2]
  · rw [h1]
  · rw [h1]

/-! ## The response parser (final step of `analyzeMessage`) -/

theorem analyzeMessage_parse_stage (render : Renderer) (jparse : JsonParser)
    (cfg : Config) (backend : GenRequest → BackendReply)
    (message prompt respText : String) (bj : Json)
    (hp : generatePrompt render message cfg.Policies cfg.PromptTemplate = .ok prompt)
    (hb : backend (genRequestFor cfg prompt) = .reply 200 (some bj))
    (hw : decodeOllamaResponse bj = .ok respText) :
    (analyzeMessage render jparse cfg backend message).2 =
      match jparse respText with
      | none => .error "error parsing moderation result"
      | some mj =>
        match decodeModerationResult mj with
        | .error _ => .error "error parsing moderation result"
        | .ok mr => .ok ⟨message, mr.safe, mr.violated_policies⟩ := by
  unfold analyzeMessage
  rw [hp]
  simp [hb, hw]

/-- C3 (amended): given a reachable backend answering 200 with a decodable
`{response}` wrapper, the final parse step of `analyzeMessage` fails —
dropping the message — exactly when the response text is not valid JSON or
its JSON value does not conform to the moderation schema's field types; a
missing `safe` or `violated_policies` field alone does NOT fail (the zero
values `false` / nil are used instead). -/
theorem C3_parse_error_characterisation (render : Renderer) (jparse : JsonParser)
    (cfg : Config) (backend : GenRequest → BackendReply)
    (message prompt respText : String) (bj : Json)
    (hp : generatePrompt render message cfg.Policies cfg.PromptTemplate = .ok prompt)
    (hb : backend (genRequestFor cfg prompt) = .reply 200 (some bj))
    (hw : decodeOllamaResponse bj = .ok respText) :
    ((analyzeMessage render jparse cfg backend message).2 =
        .error "error parsing moderation result" ↔
      jparse respText = none ∨
        ∃ mj, jparse respText = some mj ∧ conformsModerationSchema mj = false) := by
  rw [analyzeMessage_parse_stage render jparse cfg backend message prompt respText bj
    hp hb hw]
  cases jp : jparse respText with
  | none => simp
  | some mj =>
    cases hd : decodeModerationResult mj with
    | error e =>
      have hc : conformsModerationSchema mj = false := by
        rw [← decodeModerationResult_isOk, hd]; rfl
      simp [hd, hc]
    | ok mr =>
      have hc : conformsModerationSchema mj = true := by
        rw [← decodeModerationResult_isOk, hd]; rfl
      simp [hd, hc]

/-- A concrete configuration for counterexample runs. -/
def cCfg : Config := ⟨"http://o", "m", "t", [], .null⟩

/-- A concrete renderer that always succeeds. -/
def cRender : Renderer := fun template message _ => .ok (template ++ ":" ++ message)

/-- A concrete text-level JSON parser under which the backend's response
text parses to the empty JSON object — valid JSON with both required
fields missing. -/
def cJparseEmptyObj : JsonParser := fun _ => some (.obj [])

/-- A concrete backend that answers 200 with a well-formed wrapper whose
`response` text is "raw". -/
def cBackendOk : GenRequest → BackendReply :=
  fun _ => .reply 200 (some (.obj [("response", .str "raw")]))

/-- C3 (counterexample to the claim as stated): the backend's response
text "raw" parses to the empty JSON object, which is missing both required
fields `safe` and `violated_policies`; the claim demands a parse error
dropping the message, but `analyzeMessage` succeeds with the zero values
(`is_safe = false`, nil `violated_policies`). -/
theorem C3_missing_fields_not_an_error :
    cJparseEmptyObj "raw" = some (.obj []) ∧
    hasKeyCI "safe" (.obj []) = false ∧
    hasKeyCI "violated_policies" (.obj []) = false ∧
    (analyzeMessage cRender cJparseEmptyObj cCfg cBackendOk "hello").2 =
      .ok ⟨"hello", false, none⟩ :=
  ⟨rfl, rfl, rfl, rfl⟩

/-! ## Nil `violated_policies` pass-through -/

theorem foldFields_mod_vp_preserved (fields : List (String × Json))
    (m mr : moderationResult)
    (hvp : ∀ kv ∈ fields, keyMatches kv.1 "violated_policies" = true → kv.2 = .null)
    (h : foldFields setModField m fields = .ok mr) :
    mr.violated_policies = m.violated_policies := by
  induction fields generalizing m with
  | nil =>
    simp only [foldFields, Except.ok.injEq] at h
    rw [← h]
  | cons kv rest ih =>
    obtain ⟨k, v⟩ := kv
    have hrest : ∀ kv ∈ rest, keyMatches kv.1 "violated_policies" = true → kv.2 = .null :=
      fun kv hm => hvp kv (List.mem_cons_of_mem _ hm)
    cases hset : setModField m k v with
    | error e => simp [foldFields, hset] at h
    | ok m2 =>
      simp only [foldFields, hset] at h
      have hpres : m2.violated_policies = m.violated_policies := by
        unfold setModField at hset
        by_cases h1 : keyMatches k "safe" = true
        · rw [if_pos h1] at hset
          cases v with
          | null => simp only [Except.ok.injEq] at hset; rw [← hset]
          | bool b => simp only [Except.ok.injEq] at hset; rw [← hset]
          | num n => simp at hset
          | str s => simp at hset
          | arr xs => simp at hset
          | obj fs => simp at hset
        · rw [if_neg h1] at hset
          by_cases h2 : keyMatches k "violated_policies" = true
          · have hv : v = .null := hvp (k, v) (List.mem_cons_self _ _) h2
            subst hv
            rw [if_pos h2] at hset
            simp only [Except.ok.injEq] at hset
            rw [← hset]
          · rw [if_neg h2] at hset
            simp only [Except.ok.injEq] at hset
            rw [← hset]
      rw [ih m2 hrest h, hpres]

theorem foldFields_mod_safe_preserved (fields : List (String × Json))
    (m mr : moderationResult)
    (hsf : ∀ kv ∈ fields, keyMatches kv.1 "safe" = true → kv.2 = .null)
    (h : foldFields setModField m fields = .ok mr) :
    mr.safe = m.safe := by
  induction fields generalizing m with
  | nil =>
    simp only [foldFields, Except.ok.injEq] at h
    rw [← h]
  | cons kv rest ih =>
    obtain ⟨k, v⟩ := kv
    have hrest : ∀ kv ∈ rest, keyMatches kv.1 "safe" = true → kv.2 = .null :=
      fun kv hm => hsf kv (List.mem_cons_of_mem _ hm)
    cases hset : setModField m k v with
    | error e => simp [foldFields, hset] at h
    | ok m2 =>
      simp only [foldFields, hset] at h
      have hpres : m2.safe = m.safe := by
        unfold setModField at hset
        by_cases h1 : keyMatches k "safe" = true
        · have hv : v = .null := hsf (k, v) (List.mem_cons_self _ _) h1
          subst hv
          rw [if_pos h1] at hset
          simp only [Except.ok.injEq] at hset
          rw [← hset]
        · rw [if_neg h1] at hset
          by_cases h2 : keyMatches k "violated_policies" = true
          · rw [if_pos h2] at hset
            cases v with
            | null => simp only [Except.ok.injEq] at hset; rw [← hset]
            | arr xs =>
              cases hda : decodeStringArray xs with
              | error e2 => simp only [hda] at hset; simp [Except.map] at hset
              | ok l =>
                simp only [hda, Except.map, Except.ok.injEq] at hset
                rw [← hset]
            | bool b => simp at hset
            | num n => simp at hset
            | str s => simp at hset
            | obj fs => simp at hset
          · rw [if_neg h2] at hset
            simp only [Except.ok.injEq] at hset
            rw [← hset]
      rw [ih m2 hrest h, hpres]

/-- C10: when the backend's response text is valid JSON whose
`violated_policies` field is absent or null (and the object is otherwise
schema-conformant), `analyzeMessage` succeeds; the emitted element carries
a nil `violated_policies`, which `json.Marshal` encodes as JSON `null`
(not `[]`), and `is_safe` is `false` whenever `safe` is also absent or
null.  In general a successful parse is passed through verbatim: the
output is exactly the decoded `safe` flag and `violated_policies` list,
with no validation against the configured policy list. -/
theorem C10_nil_policies_encode_null (render : Renderer) (jparse : JsonParser)
    (cfg : Config) (backend : GenRequest → BackendReply)
    (message prompt respText : String) (bj : Json) (fields : List (String × Json))
    (hp : generatePrompt render message cfg.Policies cfg.PromptTemplate = .ok prompt)
    (hb : backend (genRequestFor cfg prompt) = .reply 200 (some bj))
    (hw : decodeOllamaResponse bj = .ok respText)
    (hj : jparse respText = some (.obj fields)) :
    (∀ mr, decodeModerationResult (.obj fields) = .ok mr →
      (analyzeMessage render jparse cfg backend message).2 =
        .ok ⟨message, mr.safe, mr.violated_policies⟩) ∧
    ((∀ kv ∈ fields, keyMatches kv.1 "violated_policies" = true → kv.2 = .null) →
      conformsModerationSchema (.obj fields) = true →
      ∃ res, (analyzeMessage render jparse cfg backend message).2 = .ok res ∧
        res.violated_policies = none ∧
        encodeAnalysisResult res =
          .obj [("content", .str message), ("is_safe", .bool res.is_safe),
                ("violated_policies", .null)] ∧
        ((∀ kv ∈ fields, keyMatches kv.1 "safe" = true → kv.2 = .null) →
          res.is_safe = false)) := by
  have hstage := analyzeMessage_parse_stage render jparse cfg backend message prompt
    respText bj hp hb hw
  constructor
  · intro mr hmr
    rw [hstage]
    simp only [hj, hmr]
  · intro hvp hconf
    have hok : isOkB (decodeModerationResult (.obj fields)) = true := by
      rw [decodeModerationResult_isOk]
      exact hconf
    cases hmr : decodeModerationResult (.obj fields) with
    | error e => rw [hmr] at hok; simp at hok
    | ok mr =>
      have hmr' : foldFields setModField ⟨false, none⟩ fields = .ok mr := hmr
      have hnil : mr.violated_policies = none :=
        foldFields_mod_vp_preserved fields ⟨false, none⟩ mr hvp hmr'
      refine ⟨⟨message, mr.safe, mr.violated_policies⟩, ?_, hnil, ?_, ?_⟩
      · rw [hstage]
        simp only [hj, hmr]
      · simp [encodeAnalysisResult, hnil]
      · intro hsf
        exact foldFields_mod_safe_preserved fields ⟨false, none⟩ mr hsf hmr'

/-! ## Concrete witnesses -/

/-- A renderer fixture that always succeeds. -/
def wRender : Renderer := fun t m _ => .ok (t ++ "|" ++ m)

/-- A configuration fixture. -/
def wCfg : Config := ⟨"http://b", "mistral", "tpl", ["p1"], .null⟩

/-- A parser fixture under which every response text is a well-formed
moderation object. -/
def wJparseGood : JsonParser :=
  fun _ => some (.obj [("safe", .bool true), ("violated_policies", .arr [.str "p1"])])

/-- A backend fixture answering 200 with a well-formed wrapper. -/
def wBackendGood : GenRequest → BackendReply :=
  fun _ => .reply 200 (some (.obj [("response", .str "inner")]))

/-- A parser fixture under which no response text is valid JSON. -/
def wJparseNone : JsonParser := fun _ => none

/-- A backend fixture that always fails at the transport level. -/
def wBackendFail : GenRequest → BackendReply := fun _ => .transportError

/-- A parser fixture that fails only on the text "badinner". -/
def wJparseMixed : JsonParser :=
  fun s => if s = "badinner" then none
    else some (.obj [("safe", .bool true), ("violated_policies", .arr [.str "p1"])])

/-- A backend fixture that answers the prompt for message "bad" with an
unparsable response text and every other prompt with a good one. -/
def wBackendMixed : GenRequest → BackendReply :=
  fun req =>
    if req.body.Prompt = "tpl|bad" then
      .reply 200 (some (.obj [("response", .str "badinner")]))
    else
      .reply 200 (some (.obj [("response", .str "inner")]))

/-- A parser fixture under which the response is an object carrying only a
`safe` field. -/
def wJparseSafeOnly : JsonParser := fun _ => some (.obj [("safe", .bool true)])

theorem C1_analyze_success_shape_witness :
    (handleAnalyze wRender wJparseGood wCfg wBackendGood
      ⟨"POST", some (.obj [("messages", .arr [.str "a", .str "b"])])⟩).status = 200 ∧
    (analyzeBatch wRender wJparseGood wCfg wBackendGood ["a", "b"]).length = 2 := by
  have h := C1_analyze_success_shape wRender wJparseGood wCfg wBackendGood
    (.obj [("messages", .arr [.str "a", .str "b"])]) ["a", "b"] (by rfl) (by decide)
    (by
      intro m hm
      simp only [List.mem_cons, List.not_mem_nil, or_false] at hm
      rcases hm with rfl | rfl
      · exact ⟨⟨"a", true, some ["p1"]⟩, rfl⟩
      · exact ⟨⟨"b", true, some ["p1"]⟩, rfl⟩)
  exact ⟨h.1, h.2.2.1⟩

theorem C2_failed_messages_omitted_witness :
    (handleAnalyze wRender wJparseMixed wCfg wBackendMixed
      ⟨"POST", some (.obj [("messages", .arr [.str "a", .str "bad"])])⟩).status = 200 ∧
    (analyzeBatch wRender wJparseMixed wCfg wBackendMixed ["a", "bad"]).map
      analysisResult.content = ["a"] := by
  have h := C2_failed_messages_omitted wRender wJparseMixed wCfg wBackendMixed
    (.obj [("messages", .arr [.str "a", .str "bad"])]) ["a", "bad"] (by rfl) (by decide)
  refine ⟨h.1, ?_⟩
  rw [h.2.2]
  rfl

theorem C3_parse_error_characterisation_witness :
    (analyzeMessage wRender wJparseNone wCfg wBackendGood "x").2 =
      .error "error parsing moderation result" :=
  (C3_parse_error_characterisation wRender wJparseNone wCfg wBackendGood
    "x" "tpl|x" "inner" (.obj [("response", .str "inner")]) rfl rfl rfl).mpr
    (Or.inl rfl)

theorem C4_analyze_route_errors_witness :
    ((corsMiddleware (handleAnalyze wRender wJparseGood wCfg wBackendGood)
        ⟨"GET", none⟩).status = 405 ∧
      (corsMiddleware (handleAnalyze wRender wJparseGood wCfg wBackendGood)
        ⟨"GET", none⟩).genCalls = []) ∧
    ((corsMiddleware (handleAnalyze wRender wJparseGood wCfg wBackendGood)
        ⟨"POST", none⟩).status = 400 ∧
      (corsMiddleware (handleAnalyze wRender wJparseGood wCfg wBackendGood)
        ⟨"POST", none⟩).genCalls = []) ∧
    ((corsMiddleware (handleAnalyze wRender wJparseGood wCfg wBackendGood)
        ⟨"POST", some (.obj [("messages", .arr [])])⟩).status = 400 ∧
      (corsMiddleware (handleAnalyze wRender wJparseGood wCfg wBackendGood)
        ⟨"POST", some (.obj [("messages", .arr [])])⟩).genCalls = []) := by
  have h1 := (C4_analyze_route_errors wRender wJparseGood wCfg wBackendGood
    ⟨"GET", none⟩).1 (by decide) (by decide)
  have h2 := (C4_analyze_route_errors wRender wJparseGood wCfg wBackendGood
    ⟨"POST", none⟩).2.1 rfl rfl
  have h3 := (C4_analyze_route_errors wRender wJparseGood wCfg wBackendGood
    ⟨"POST", some (.obj [("messages", .arr [])])⟩).2.2 rfl (by rfl)
  exact ⟨⟨h1.1, h1.2⟩, ⟨h2.1, h2.2.2⟩, ⟨h3.1, h3.2.2⟩⟩

theorem C5_health_statuses_witness :
    (handleOllamaHealth "http://b" (fun _ => .connectError "refused")
      ⟨"GET", none⟩).status = 503 ∧
    ((handleOllamaHealth "http://b" (fun _ => .reply 500 "boom")
      ⟨"GET", none⟩).status = 502 ∧
     (handleOllamaHealth "http://b" (fun _ => .reply 500 "boom")
      ⟨"GET", none⟩).body =
        .text "unexpected version status code 500: boom") ∧
    ((handleOllamaHealth "http://b" (fun _ => .reply 200 "1.0")
      ⟨"GET", none⟩).status = 200 ∧
     (handleOllamaHealth "http://b" (fun _ => .reply 200 "1.0")
      ⟨"GET", none⟩).body = .text "ollama: 1.0") := by
  have h1 := (C5_health_statuses "http://b" (fun _ => .connectError "refused")
    ⟨"GET", none⟩).2.1 "refused" rfl
  have h2 := (C5_health_statuses "http://b" (fun _ => .reply 500 "boom")
    ⟨"GET", none⟩).2.2.1 500 "boom" rfl (by decide)
  have h3 := (C5_health_statuses "http://b" (fun _ => .reply 200 "1.0")
    ⟨"GET", none⟩).2.2.2 "1.0" rfl
  exact ⟨h1, ⟨h2.1, h2.2⟩, ⟨h3.1, h3.2⟩⟩

theorem C6_cors_options_witness :
    corsMiddleware (fun _ => ⟨200, [], .text "hi", []⟩) ⟨"OPTIONS", none⟩ =
      ⟨200, corsHeaders, .text "", []⟩ ∧
    corsMiddleware (fun _ => ⟨200, [], .text "hi", []⟩) ⟨"GET", none⟩ =
      ⟨200, corsHeaders ++ [], .text "hi", []⟩ ∧
    ("Access-Control-Allow-Origin", "*") ∈
      (corsMiddleware (fun _ => ⟨200, [], .text "hi", []⟩) ⟨"OPTIONS", none⟩).headers := by
  have h1 := ((C6_cors_options (fun _ => ⟨200, [], .text "hi", []⟩)
    ⟨"OPTIONS", none⟩).1 rfl).1
  have h2 := (C6_cors_options (fun _ => ⟨200, [], .text "hi", []⟩)
    ⟨"GET", none⟩).2.1 (by decide)
  have h3 := (C6_cors_options (fun _ => ⟨200, [], .text "hi", []⟩)
    ⟨"OPTIONS", none⟩).2.2
  exact ⟨h1, h2, h3⟩

theorem C7_loadConfig_conditions_witness :
    isOkB (loadConfig .readError) = false ∧
    loadConfig (.contents (some (.obj [("ollama_url", .str "u"),
        ("model", .str "m"), ("prompt_template", .str "t"),
        ("policies", .arr [.str "p1"]), ("response_format", .bool true)]))) =
      .ok ⟨"u", "m", "t", ["p1"], .bool true⟩ := by
  have h1 := (C7_loadConfig_conditions .readError).1.2 (Or.inl rfl)
  have h2 := (C7_loadConfig_conditions (.contents (some (.obj
    [("ollama_url", .str "u"), ("model", .str "m"), ("prompt_template", .str "t"),
     ("policies", .arr [.str "p1"]), ("response_format", .bool true)])))).2.1
    (.obj [("ollama_url", .str "u"), ("model", .str "m"), ("prompt_template", .str "t"),
     ("policies", .arr [.str "p1"]), ("response_format", .bool true)])
    ⟨"u", "m", "t", ["p1"], .bool true⟩ rfl (by rfl) (by decide) (by decide) (by decide)
  exact ⟨h1, h2⟩

theorem C8_single_generate_call_witness :
    (analyzeMessage wRender wJparseGood wCfg wBackendFail "x").1 =
      [⟨"http://b" ++ "/api/generate", ⟨"mistral", "tpl|x", false, .null⟩⟩] ∧
    (analyzeMessage wRender wJparseGood wCfg wBackendFail "x").2 =
      .error "API request failed" := by
  have h := C8_single_generate_call wRender wJparseGood wCfg wBackendFail
    "x" "tpl|x" rfl
  exact ⟨h.1, h.2.1 rfl⟩

theorem C9_absent_or_null_messages_witness :
    (handleAnalyze wRender wJparseGood wCfg wBackendGood
      ⟨"POST", some (.obj [("messages", .null)])⟩).status = 400 ∧
    (handleAnalyze wRender wJparseGood wCfg wBackendGood
      ⟨"POST", some (.obj [("messages", .null)])⟩).body =
      .text "Messages array cannot be empty" := by
  have h := C9_absent_or_null_messages wRender wJparseGood wCfg wBackendGood
    (.obj [("messages", .null)])
    (Or.inr ⟨[("messages", .null)], rfl, by
      intro kv hm hk
      simp only [List.mem_singleton] at hm
      subst hm
      rfl⟩)
  exact ⟨h.2.1, h.2.2⟩

theorem C10_nil_policies_encode_null_witness :
    (analyzeMessage wRender wJparseSafeOnly wCfg wBackendGood "x").2 =
      .ok ⟨"x", true, none⟩ ∧
    encodeAnalysisResult ⟨"x", true, none⟩ =
      .obj [("content", .str "x"), ("is_safe", .bool true),
            ("violated_policies", .null)] := by
  have h := (C10_nil_policies_encode_null wRender wJparseSafeOnly wCfg wBackendGood
    "x" "tpl|x" "inner" (.obj [("response", .str "inner")])
    [("safe", .bool true)] rfl rfl rfl rfl).1 ⟨true, none⟩ rfl
  exact ⟨h, rfl⟩
